import Mathlib

/-!
Verification of the request-execution core of a gRPC load-testing tool
(files `runner/call_template_data.go` and `runner/worker.go`).

The Go code is shallowly embedded:
* `GoOutcome` models a Go call result: a value, a returned non-nil `error`,
  or a runtime panic (the code wraps template parsing in `template.Must`,
  which panics on a parse error).
* The `text/template` engine is modelled on the fragment the payload and
  metadata templates use: literal text plus field-reference actions
  (a double-open-brace, a dot, an identifier, a double-close-brace).
  An unterminated or non-field action is a parse error, exactly as the Go
  engine rejects an unclosed action or an unknown function at parse time;
  a reference to a field that `callTemplateData` does not have is an
  evaluation error, as in Go.  Template functions that do input/output are
  outside the claims and are not part of the modelled fragment.
* `encoding/json.Unmarshal` into `map[string]string` is modelled by
  `jsonUnmarshalStringMap`: a flat object of string values parses to an
  association list (later duplicate keys overwrite), the literal `null`
  leaves the map nil, and anything else is an unmarshal error.
* Randomness (`rand.Intn`, `rand.Shuffle` draws) is passed in as explicit
  arguments, so every function is a deterministic function of its inputs.
-/

/-- Result of running a piece of Go code: a normal value, a non-nil Go
`error`, or a panic. -/
inductive GoOutcome (α : Type) where
  | ok (val : α)
  | err (msg : String)
  | panicked
  deriving DecidableEq, Repr

/-- The per-call template data record from `call_template_data.go`.
`RequestNumber` and `TimestampUnix` are Go `int64`, modelled as `Int`. -/
structure callTemplateData where
  WorkerID : String
  RequestNumber : Int
  FullyQualifiedName : String
  MethodName : String
  ServiceName : String
  InputName : String
  OutputName : String
  IsClientStreaming : Bool
  IsServerStreaming : Bool
  Timestamp : String
  TimestampUnix : Int
  deriving DecidableEq, Repr

/-- One parsed template item: a run of literal text or a field reference. -/
inductive TplItem where
  | lit (s : String)
  | field (name : String)
  deriving DecidableEq, Repr

/-- Scan for the first action opener (two `\x7b` characters); return the
literal text before it and, when found, the remaining characters. -/
def splitOpen : List Char → List Char × Option (List Char)
  | [] => ([], none)
  | '\x7b' :: '\x7b' :: rest => ([], some rest)
  | c :: rest =>
    let r := splitOpen rest
    (c :: r.1, r.2)

/-- Scan for the action closer (two `\x7d` characters); return the action
content and the remaining characters, or `none` for an unclosed action. -/
def splitClose : List Char → Option (List Char × List Char)
  | [] => none
  | '\x7d' :: '\x7d' :: rest => some ([], rest)
  | c :: rest =>
    match splitClose rest with
    | none => none
    | some p => some (c :: p.1, p.2)

/-- Whitespace test used when trimming action content. -/
def isWsChar (c : Char) : Bool :=
  c = ' ' || c = '\t' || c = '\n' || c = '\r'

/-- Trim whitespace from both ends of a character list. -/
def trimChars (cs : List Char) : List Char :=
  (((cs.dropWhile isWsChar).reverse).dropWhile isWsChar).reverse

/-- Parse the content of one action.  The modelled fragment accepts a
(whitespace-trimmed) dot followed by a nonempty identifier; anything else
is a parse error, as the Go engine rejects unknown functions and malformed
actions at parse time. -/
def parseAction (content : List Char) : Option String :=
  match trimChars content with
  | '.' :: f =>
    if !f.isEmpty && f.all (fun c => c.isAlphanum || c = '_') then some (String.mk f)
    else none
  | _ => none

/-- Fuel-indexed template parser: alternating literal text and actions. -/
def parseItems : Nat → List Char → Option (List TplItem)
  | 0, _ => none
  | fuel + 1, cs =>
    match splitOpen cs with
    | (litTxt, none) => some [TplItem.lit (String.mk litTxt)]
    | (litTxt, some rest) =>
      match splitClose rest with
      | none => none
      | some (content, after) =>
        match parseAction content with
        | none => none
        | some f =>
          match parseItems fuel after with
          | none => none
          | some items => some (TplItem.lit (String.mk litTxt) :: TplItem.field f :: items)

/-- Parse a template string (the `Parse` step inside `execute`). -/
def parseTemplate (s : String) : Option (List TplItem) :=
  parseItems (s.length + 1) s.toList

/-- Render one field of `callTemplateData` the way `text/template` prints
it, or `none` when the record has no such field. -/
def lookupField (td : callTemplateData) (f : String) : Option String :=
  if f = "WorkerID" then some td.WorkerID
  else if f = "RequestNumber" then some (toString td.RequestNumber)
  else if f = "FullyQualifiedName" then some td.FullyQualifiedName
  else if f = "MethodName" then some td.MethodName
  else if f = "ServiceName" then some td.ServiceName
  else if f = "InputName" then some td.InputName
  else if f = "OutputName" then some td.OutputName
  else if f = "IsClientStreaming" then some (if td.IsClientStreaming then "true" else "false")
  else if f = "IsServerStreaming" then some (if td.IsServerStreaming then "true" else "false")
  else if f = "Timestamp" then some td.Timestamp
  else if f = "TimestampUnix" then some (toString td.TimestampUnix)
  else none

/-- Evaluate parsed template items against the call data; evaluation stops
with an error at the first unknown field reference. -/
def evalItems (td : callTemplateData) : List TplItem → Except String String
  | [] => Except.ok ""
  | TplItem.lit s :: rest =>
    match evalItems td rest with
    | Except.ok t => Except.ok (s ++ t)
    | Except.error e => Except.error e
  | TplItem.field f :: rest =>
    match lookupField td f with
    | none => Except.error ("can not evaluate field " ++ f)
    | some v =>
      match evalItems td rest with
      | Except.ok t => Except.ok (v ++ t)
      | Except.error e => Except.error e

/-- The `execute` method of `callTemplateData`: parse under `template.Must`
(a parse error panics) and evaluate against the record. -/
def execute (td : callTemplateData) (data : String) : GoOutcome String :=
  match parseTemplate data with
  | none => GoOutcome.panicked
  | some items =>
    match evalItems td items with
    | Except.error e => GoOutcome.err e
    | Except.ok s => GoOutcome.ok s

/-- The `executeData` method: empty input yields empty bytes; otherwise the
template is executed and, on an evaluation error, the original input bytes
are used verbatim, with a nil error either way. -/
def executeData (td : callTemplateData) (data : String) : GoOutcome String :=
  if data.length > 0 then
    match execute td data with
    | GoOutcome.panicked => GoOutcome.panicked
    | GoOutcome.err _ => GoOutcome.ok data
    | GoOutcome.ok s => GoOutcome.ok s
  else GoOutcome.ok ""

/-- Skip JSON whitespace. -/
def skipWs : List Char → List Char
  | [] => []
  | c :: rest => if c = ' ' || c = '\t' || c = '\n' || c = '\r' then skipWs rest else c :: rest

/-- Body of a JSON string after its opening quote (escape sequences are
outside the modelled fragment). -/
def jstrBody : List Char → Option (List Char × List Char)
  | [] => none
  | '"' :: rest => some ([], rest)
  | '\\' :: _ => none
  | c :: rest =>
    match jstrBody rest with
    | none => none
    | some p => some (c :: p.1, p.2)

/-- Parse one JSON string literal. -/
def parseJString : List Char → Option (String × List Char)
  | '"' :: rest =>
    match jstrBody rest with
    | none => none
    | some p => some (String.mk p.1, p.2)
  | _ => none

/-- Insert a key/value pair, overwriting an existing key as a Go map does. -/
def insertKV (kvs : List (String × String)) (k v : String) : List (String × String) :=
  if kvs.any (fun p => p.1 = k) then
    kvs.map (fun p => if p.1 = k then (k, v) else p)
  else kvs ++ [(k, v)]

/-- Fuel-indexed parser for the members of a JSON object of strings. -/
def parseMembers : Nat → List Char → List (String × String) → Option (List (String × String) × List Char)
  | 0, _, _ => none
  | fuel + 1, cs, acc =>
    match parseJString (skipWs cs) with
    | none => none
    | some (k, rest1) =>
      match skipWs rest1 with
      | ':' :: rest2 =>
        match parseJString (skipWs rest2) with
        | none => none
        | some (v, rest3) =>
          match skipWs rest3 with
          | ',' :: rest4 => parseMembers fuel rest4 (insertKV acc k v)
          | '\x7d' :: rest4 => some (insertKV acc k v, rest4)
          | _ => none
      | _ => none

/-- Go `json.Unmarshal` of a byte string into a `map[string]string`:
outer `none` is an unmarshal error; `some none` is the literal `null`,
which leaves the map nil; `some (some kvs)` is a parsed object. -/
def jsonUnmarshalStringMap (s : String) : Option (Option (List (String × String))) :=
  match skipWs s.toList with
  | 'n' :: 'u' :: 'l' :: 'l' :: rest => if skipWs rest = [] then some none else none
  | '\x7b' :: rest =>
    match skipWs rest with
    | '\x7d' :: after => if skipWs after = [] then some (some []) else none
    | rest2 =>
      match parseMembers (s.length + 1) rest2 [] with
      | none => none
      | some (kvs, after) => if skipWs after = [] then some (some kvs) else none
  | _ => none

/-- The `executeMetadata` method: empty input returns the nil map with no
error; otherwise the template is executed, an evaluation error falls back
to the original input, and the resulting text must unmarshal as a flat
string-to-string object or the unmarshal error is returned. -/
def executeMetadata (td : callTemplateData) (metadata : String) :
    GoOutcome (Option (List (String × String))) :=
  if metadata.length > 0 then
    match execute td metadata with
    | GoOutcome.panicked => GoOutcome.panicked
    | GoOutcome.err _ =>
      match jsonUnmarshalStringMap metadata with
      | none => GoOutcome.err "json unmarshal error"
      | some m => GoOutcome.ok m
    | GoOutcome.ok s =>
      match jsonUnmarshalStringMap s with
      | none => GoOutcome.err "json unmarshal error"
      | some m => GoOutcome.ok m
  else GoOutcome.ok none

/-- Text the template expansion step settles on when it does not panic:
the evaluated output on success, the original source on an evaluation
error, `none` when parsing panics. -/
def expandResult (td : callTemplateData) (s : String) : Option String :=
  match execute td s with
  | GoOutcome.panicked => none
  | GoOutcome.err _ => some s
  | GoOutcome.ok t => some t

/-- A concrete call template data record (the values the repository's own
test fixture uses). -/
def ctd0 : callTemplateData :=
  { WorkerID := "worker_id_123"
    RequestNumber := 200
    FullyQualifiedName := "helloworld.Greeter.SayHello"
    MethodName := "SayHello"
    ServiceName := "Greeter"
    InputName := "HelloRequest"
    OutputName := "HelloReply"
    IsClientStreaming := false
    IsServerStreaming := false
    Timestamp := "2020-01-01T00:00:00Z"
    TimestampUnix := 1577836800 }

/-- The `RoundRobin` template function: on a nonempty list it indexes with
the Go `%` of `RequestNumber` (truncated division); a negative index would
be a Go runtime panic. -/
def RoundRobin (td : callTemplateData) (values : List String) : GoOutcome String :=
  if values.length < 1 then GoOutcome.err "values is empty"
  else
    let i : Int := Int.tmod td.RequestNumber (values.length : Int)
    if 0 ≤ i then
      match values[i.toNat]? with
      | some v => GoOutcome.ok v
      | none => GoOutcome.panicked
    else GoOutcome.panicked

/-- Go slice expression on lists: the elements with index at least `s` and
below `e`. -/
def goSlice (l : List String) (s e : Nat) : List String :=
  (l.take e).drop s

/-- The `RandomSlice` template function with its two `rand.Intn` draws made
explicit: the draws are sorted, coinciding draws at the array start extend
the end bound by one, coinciding draws elsewhere retract the start bound by
one, and the adjusted pair slices the input. -/
def RandomSlice (values : List String) (start fin : Nat) : GoOutcome (List String) :=
  if values.length < 1 then GoOutcome.err "values is empty"
  else
    let p : Nat × Nat :=
      if start > fin then (fin, start)
      else if start = fin then
        (if start = 0 then (start, fin + 1) else (start - 1, fin))
      else (start, fin)
    GoOutcome.ok (goSlice values p.1 p.2)

/-- One swap step of `rand.Shuffle`: exchange the elements at positions
`i` and `j` (out-of-range positions leave the list unchanged; the shuffle
only produces in-range positions). -/
def goSwap {α : Type} (l : List α) (i j : Nat) : List α :=
  match l[i]?, l[j]? with
  | some a, some b => (l.set i b).set j a
  | _, _ => l

/-- The Fisher-Yates loop of `rand.Shuffle`: for `i` from `n - 1` down to
`1`, swap position `i` with the drawn position `j`.  The draws are passed
in explicitly. -/
def shuffleAux {α : Type} : List α → Nat → List Nat → List α
  | l, 0, _ => l
  | l, _ + 1, [] => l
  | l, i + 1, j :: js => shuffleAux (goSwap l (i + 1) j) i js

/-- The `Shuffle` template function: it shuffles the argument slice in
place and returns it.  The first component is the returned slice and the
second is the caller's slice after the call; the Go code swaps elements of
the caller's backing array, so both are the shuffled list. -/
def Shuffle (values : List String) (draws : List Nat) : List String × List String :=
  let r := shuffleAux values (values.length - 1) draws
  (r, r)

/-- Abstract wire message. -/
abbrev Msg := Nat

/-- One RPC issued through the stub, tagged by call shape. -/
inductive RpcCall where
  | unary (m : Msg)
  | clientStream (ms : List Msg)
  | serverStream (m : Msg)
  | bidi (ms : List Msg)
  deriving DecidableEq, Repr

/-- The dispatch section of `Worker.makeRequest` (after payload and
metadata resolution): the list of RPCs it issues, in order, and the error
it returns.  The Go code has no early return after the streaming branches,
so control falls through; `reqNum` is the allocated request number. -/
def makeRequestDispatch (isClientStreaming isServerStreaming : Bool)
    (inputs : List Msg) (reqNum : Int) : List RpcCall × Option String :=
  let calls1 : List RpcCall :=
    if isClientStreaming && isServerStreaming then [RpcCall.bidi inputs] else []
  let calls2 : List RpcCall :=
    calls1 ++ (if isClientStreaming then [RpcCall.clientStream inputs] else [])
  if inputs.length = 0 then (calls2, some "no data provided for request")
  else
    let inputIdx : Nat := (Int.tmod (reqNum - 1) (inputs.length : Int)).toNat
    let m : Msg := inputs.getD inputIdx 0
    let calls3 : List RpcCall :=
      calls2 ++ (if isServerStreaming then [RpcCall.serverStream m] else [])
    (calls3 ++ [RpcCall.unary m], none)

/-- Observable behaviour of `Worker.makeBidiRequest` on the success path of
the transport: whether the send side was closed before anything was sent,
whether the receive goroutine was started, the messages sent, and the
returned error. -/
structure BidiTrace where
  closedSendImmediately : Bool
  recvStarted : Bool
  sent : List Msg
  result : Option String
  deriving DecidableEq, Repr

/-- `Worker.makeBidiRequest`: with no input messages it closes the send
side at once, never starts the receive goroutine, and returns nil;
otherwise it starts the receiver, sends every message, closes the send
side, and returns nil. -/
def makeBidiRequest (inputs : List Msg) : BidiTrace :=
  if inputs.length = 0 then
    { closedSendImmediately := true, recvStarted := false, sent := [], result := none }
  else
    { closedSendImmediately := false, recvStarted := true, sent := inputs, result := none }

/-- Observable behaviour of `Worker.makeClientStreamingRequest` on the
success path of the transport. -/
structure ClientStreamTrace where
  closedAndReceived : Bool
  sent : List Msg
  result : Option String
  deriving DecidableEq, Repr

/-- `Worker.makeClientStreamingRequest`: with no input messages it calls
close-and-receive at once and returns nil; otherwise it sends every
message, then closes and receives, returning nil. -/
def makeClientStreamingRequest (inputs : List Msg) : ClientStreamTrace :=
  if inputs.length = 0 then
    { closedAndReceived := true, sent := [], result := none }
  else
    { closedAndReceived := true, sent := inputs, result := none }

/-- Go `multierr.Append` on an aggregate modelled as the list of collected
error messages (the empty list is the nil error). -/
def multierrAppend (agg : List String) (e : Option String) : List String :=
  match e with
  | none => agg
  | some msg => agg ++ [msg]

/-- The loop of `Worker.runWorker`: `r` iterations remain, `i` is the
current iteration index, `agg` the accumulated multi-error and `calls` the
number of calls issued.  A stop signal observed at the iteration boundary
returns nil (the Go code returns the literal nil, not the aggregate);
otherwise the call's error is appended and the loop continues. -/
def runWorkerAux (stopAt : Nat → Bool) (callErr : Nat → Option String) :
    Nat → Nat → List String → Nat → List String × Nat
  | 0, _, agg, calls => (agg, calls)
  | r + 1, i, agg, calls =>
    if stopAt i then ([], calls)
    else runWorkerAux stopAt callErr r (i + 1) (multierrAppend agg (callErr i)) (calls + 1)

/-- `Worker.runWorker` for `nReq` configured calls: returns the final
aggregate error and the number of calls issued.  `stopAt i` tells whether
the stop channel is readable at the boundary of iteration `i`, and
`callErr i` is the error of call `i`. -/
def runWorker (nReq : Nat) (stopAt : Nat → Bool) (callErr : Nat → Option String) :
    List String × Nat :=
  runWorkerAux stopAt callErr nReq 0 [] 0

/-- Aggregate of the call errors of iterations `i, i+1, ..., i+r-1`. -/
def aggregateRange (callErr : Nat → Option String) : Nat → Nat → List String
  | _, 0 => []
  | i, r + 1 => (callErr i).toList ++ aggregateRange callErr (i + 1) r

/-- The Worker state `getMessages` touches: the binary-mode flag and the
cached decoded messages. -/
structure WorkerSt where
  binary : Bool
  cachedMessages : Option (List Msg)
  deriving DecidableEq, Repr

/-- Result of one `Worker.getMessages` call: the returned value, the
Worker state afterwards, and how many binary and JSON decodes ran. -/
structure GetMessagesOut where
  result : GoOutcome (List Msg)
  st : WorkerSt
  binDecodes : Nat
  jsonDecodes : Nat
  deriving DecidableEq, Repr

/-- `Worker.getMessages`: a populated cache is returned as is; in
non-binary mode the payload is template-expanded with `executeData` and
decoded from JSON without caching; in binary mode the raw bytes are
decoded and the result cached.  The two decoders
(`createPayloadsFromJSON`, `createPayloadsFromBin`) live outside the two
source files and are passed in as functions. -/
def getMessages (decodeBin decodeJSON : String → Except String (List Msg))
    (td : callTemplateData) (w : WorkerSt) (inputData : String) : GetMessagesOut :=
  match w.cachedMessages with
  | some c => { result := GoOutcome.ok c, st := w, binDecodes := 0, jsonDecodes := 0 }
  | none =>
    if !w.binary then
      match executeData td inputData with
      | GoOutcome.panicked =>
        { result := GoOutcome.panicked, st := w, binDecodes := 0, jsonDecodes := 0 }
      | GoOutcome.err e =>
        { result := GoOutcome.err e, st := w, binDecodes := 0, jsonDecodes := 0 }
      | GoOutcome.ok data =>
        match decodeJSON data with
        | Except.error e =>
          { result := GoOutcome.err e, st := w, binDecodes := 0, jsonDecodes := 1 }
        | Except.ok msgs =>
          { result := GoOutcome.ok msgs, st := w, binDecodes := 0, jsonDecodes := 1 }
    else
      match decodeBin inputData with
      | Except.error e =>
        { result := GoOutcome.err e, st := w, binDecodes := 1, jsonDecodes := 0 }
      | Except.ok msgs =>
        { result := GoOutcome.ok msgs
          st := { w with cachedMessages := some msgs }
          binDecodes := 1, jsonDecodes := 0 }

/-- Iterate `getMessages` over `n` successive calls with the same payload,
threading the Worker state and totalling the decode counts; a panic stops
the run. -/
def runGetMessages (decodeBin decodeJSON : String → Except String (List Msg))
    (td : callTemplateData) (inputData : String) : Nat → WorkerSt → WorkerSt × Nat × Nat
  | 0, w => (w, 0, 0)
  | n + 1, w =>
    let o := getMessages decodeBin decodeJSON td w inputData
    match o.result with
    | GoOutcome.panicked => (o.st, o.binDecodes, o.jsonDecodes)
    | _ =>
      let rest := runGetMessages decodeBin decodeJSON td inputData n o.st
      (rest.1, o.binDecodes + rest.2.1, o.jsonDecodes + rest.2.2)

/-- A string other than the empty string has positive length. -/
theorem string_pos_of_ne (s : String) (h : s ≠ "") : 0 < s.length := by
  cases s with
  | mk data =>
    cases data with
    | nil => exact absurd rfl h
    | cons c cs => simp

/-- C1 counterexample: on the input consisting of a single unterminated
action opener, template parsing fails and `executeData` panics (through
`template.Must`) instead of returning the original input bytes with a nil
error, so the claim fails at this input. -/
theorem executeData_parse_failure_cex :
    executeData ctd0 "\x7b\x7b" = GoOutcome.panicked ∧
    executeData ctd0 "\x7b\x7b" ≠ GoOutcome.ok "\x7b\x7b" := by
  constructor
  · rfl
  · decide

/-- C1 (amended): for every input string whose template parses, an
evaluation failure (in particular an unknown field reference) makes
`executeData` return the original input bytes verbatim with a nil error,
and `executeData` never returns a non-nil error; but when template parsing
fails the call panics instead of returning the input. -/
theorem executeData_eval_failure_fallback (td : callTemplateData) (s : String) :
    (∀ items e, parseTemplate s = some items → evalItems td items = Except.error e →
      executeData td s = GoOutcome.ok s)
    ∧ (parseTemplate s = none → executeData td s = GoOutcome.panicked)
    ∧ (∀ e, executeData td s ≠ GoOutcome.err e) := by
  refine ⟨?_, ?_, ?_⟩
  · intro items e hp he
    rcases eq_or_ne s "" with rfl | hs
    · rw [show parseTemplate "" = some [TplItem.lit ""] from rfl] at hp
      cases hp
      simp [evalItems] at he
    · have hlen : 0 < s.length := string_pos_of_ne s hs
      simp only [executeData, execute, hp, he, if_pos, gt_iff_lt, hlen]
  · intro hp
    have hs : s ≠ "" := by
      intro hcon
      subst hcon
      rw [show parseTemplate "" = some [TplItem.lit ""] from rfl] at hp
      cases hp
    have hlen : 0 < s.length := string_pos_of_ne s hs
    simp only [executeData, execute, hp, if_pos, gt_iff_lt, hlen]
  · intro e
    unfold executeData
    split
    · cases hE : execute td s <;> simp [hE]
    · simp

/-- Witness for the amended C1 theorem: the unknown-action fixture from
the repository's tests comes back byte-for-byte unchanged with nil
error. -/
theorem executeData_eval_failure_fallback_witness :
    executeData ctd0 "a\x7b\x7b.Something\x7d\x7db" =
      GoOutcome.ok "a\x7b\x7b.Something\x7d\x7db" :=
  (executeData_eval_failure_fallback ctd0 "a\x7b\x7b.Something\x7d\x7db").1
    [TplItem.lit "a", TplItem.field "Something", TplItem.lit "b"]
    "can not evaluate field Something" rfl rfl

/-- C6: `executeData` on the empty string returns empty bytes with nil
error, `executeMetadata` on the empty string returns the nil (empty) map
with nil error, and for every non-empty metadata input whose expanded text
fails to unmarshal as a flat string-to-string JSON object,
`executeMetadata` returns a non-nil error. -/
theorem execute_empty_and_metadata_errors :
    (∀ td : callTemplateData, executeData td "" = GoOutcome.ok "")
    ∧ (∀ td : callTemplateData, executeMetadata td "" = GoOutcome.ok none)
    ∧ (∀ (td : callTemplateData) (md t : String), md ≠ "" →
        expandResult td md = some t → jsonUnmarshalStringMap t = none →
        ∃ e, executeMetadata td md = GoOutcome.err e) := by
  refine ⟨fun td => rfl, fun td => rfl, ?_⟩
  intro td md t hne hexp hjson
  have hlen : 0 < md.length := string_pos_of_ne md hne
  unfold expandResult at hexp
  cases hE : execute td md with
  | panicked => rw [hE] at hexp; cases hexp
  | err e0 =>
    rw [hE] at hexp
    cases hexp
    refine ⟨"json unmarshal error", ?_⟩
    simp only [executeMetadata, hE, hjson, if_pos, gt_iff_lt, hlen]
  | ok s0 =>
    rw [hE] at hexp
    cases hexp
    refine ⟨"json unmarshal error", ?_⟩
    simp only [executeMetadata, hE, hjson, if_pos, gt_iff_lt, hlen]

/-- Witness for the C6 theorem: a non-empty metadata input that expands to
itself and is not JSON yields a non-nil error. -/
theorem execute_empty_and_metadata_errors_witness :
    ∃ e, executeMetadata ctd0 "bogus" = GoOutcome.err e :=
  execute_empty_and_metadata_errors.2.2 ctd0 "bogus" "bogus"
    (by decide) (by decide) (by decide)

/-- On a nonempty list and a nonnegative request number, `RoundRobin`
returns the element at index `RequestNumber` modulo the length. -/
theorem roundRobin_eq (td : callTemplateData) (values : List String)
    (hne : values ≠ []) (hreq : 0 ≤ td.RequestNumber) :
    RoundRobin td values =
      GoOutcome.ok (values.getD ((td.RequestNumber % (values.length : Int)).toNat) "") := by
  have hn : 0 < values.length := List.length_pos.mpr hne
  have hnz : (0 : Int) < (values.length : Int) := by exact_mod_cast hn
  have htm : Int.tmod td.RequestNumber (values.length : Int) =
      td.RequestNumber % (values.length : Int) :=
    Int.tmod_eq_emod hreq (le_of_lt hnz)
  have h0 : 0 ≤ td.RequestNumber % (values.length : Int) :=
    Int.emod_nonneg _ (ne_of_gt hnz)
  have hlt : td.RequestNumber % (values.length : Int) < (values.length : Int) :=
    Int.emod_lt_of_pos _ hnz
  have hltn : (td.RequestNumber % (values.length : Int)).toNat < values.length := by omega
  unfold RoundRobin
  rw [if_neg (by omega : ¬ values.length < 1)]
  simp only [htm]
  rw [if_pos h0, List.getElem?_eq_getElem hltn]
  rw [List.getD_eq_getElem?_getD, List.getElem?_eq_getElem hltn]
  rfl

/-- C7: on every nonempty value list and every reachable context (request
numbers are allocated from a counter starting at one, hence nonnegative),
`RoundRobin` returns the element indexed by `RequestNumber` modulo the
list length, fails with an error on the empty list, and is periodic: the
context with `RequestNumber + len(values)` selects the same element. -/
theorem roundRobin_mod_spec (td : callTemplateData) (values : List String)
    (hne : values ≠ []) (hreq : 0 ≤ td.RequestNumber) :
    RoundRobin td values =
      GoOutcome.ok (values.getD ((td.RequestNumber % (values.length : Int)).toNat) "")
    ∧ (∀ td2 : callTemplateData, RoundRobin td2 [] = GoOutcome.err "values is empty")
    ∧ RoundRobin { td with RequestNumber := td.RequestNumber + values.length } values
        = RoundRobin td values := by
  have hn : 0 < values.length := List.length_pos.mpr hne
  refine ⟨roundRobin_eq td values hne hreq, fun td2 => rfl, ?_⟩
  have hreq2 : 0 ≤ td.RequestNumber + (values.length : Int) := by positivity
  rw [roundRobin_eq { td with RequestNumber := td.RequestNumber + values.length }
      values hne hreq2,
    roundRobin_eq td values hne hreq]
  have hmod : (td.RequestNumber + (values.length : Int)) % (values.length : Int)
      = td.RequestNumber % (values.length : Int) := by
    have h1 : td.RequestNumber + (values.length : Int)
        = td.RequestNumber + (values.length : Int) * 1 := by ring
    rw [h1, Int.add_mul_emod_self_left]
  simp only [hmod]

/-- Witness for the C7 theorem at the test fixture's request number 200
over a three-element list. -/
theorem roundRobin_mod_spec_witness :
    RoundRobin ctd0 ["a", "b", "c"] = GoOutcome.ok "c" :=
  ((roundRobin_mod_spec ctd0 ["a", "b", "c"] (by decide) (by decide)).1).trans (by decide)

/-- A Go slice between a strictly smaller start and an in-range end bound
is nonempty. -/
theorem goSlice_ne_nil (values : List String) (s2 e2 : Nat)
    (h1 : s2 < e2) (h2 : e2 ≤ values.length) : goSlice values s2 e2 ≠ [] := by
  intro hcon
  have hlen : ((values.take e2).drop s2).length = 0 := by
    rw [show (values.take e2).drop s2 = goSlice values s2 e2 from rfl, hcon]
    rfl
  rw [List.length_drop, List.length_take] at hlen
  omega

/-- C8: with in-range random draws on a nonempty list, `RandomSlice`
returns a nonempty contiguous sub-sequence (a Go slice of the input), the
coinciding-draw edge policy extends the end bound by one at the array
start and retracts the start bound by one elsewhere, and the empty list
fails with an error. -/
theorem randomSlice_nonempty_contiguous (values : List String) (s e : Nat)
    (hne : values ≠ []) (hs : s < values.length) (he : e < values.length) :
    (∃ s2 e2, s2 < e2 ∧ e2 ≤ values.length ∧
       RandomSlice values s e = GoOutcome.ok (goSlice values s2 e2) ∧
       goSlice values s2 e2 ≠ [])
    ∧ (s = e → s = 0 → RandomSlice values s e = GoOutcome.ok (goSlice values s (e + 1)))
    ∧ (s = e → s ≠ 0 → RandomSlice values s e = GoOutcome.ok (goSlice values (s - 1) e))
    ∧ (∀ a b : Nat, RandomSlice [] a b = GoOutcome.err "values is empty") := by
  have hn : 0 < values.length := List.length_pos.mpr hne
  have hn1 : ¬ values.length < 1 := by omega
  refine ⟨?_, ?_, ?_, fun a b => rfl⟩
  · rcases Nat.lt_trichotomy s e with hlt | heq | hgt
    · refine ⟨s, e, hlt, by omega, ?_, goSlice_ne_nil values s e hlt (by omega)⟩
      unfold RandomSlice
      rw [if_neg hn1, if_neg (by omega : ¬ s > e), if_neg (by omega : ¬ s = e)]
    · subst heq
      by_cases h0 : s = 0
      · subst h0
        refine ⟨0, 1, by omega, by omega, ?_, goSlice_ne_nil values 0 1 (by omega) (by omega)⟩
        unfold RandomSlice
        rw [if_neg hn1, if_neg (by omega : ¬ (0 : Nat) > 0), if_pos rfl, if_pos rfl]
      · refine ⟨s - 1, s, by omega, by omega, ?_,
          goSlice_ne_nil values (s - 1) s (by omega) (by omega)⟩
        unfold RandomSlice
        rw [if_neg hn1, if_neg (by omega : ¬ s > s), if_pos rfl, if_neg h0]
    · refine ⟨e, s, hgt, by omega, ?_, goSlice_ne_nil values e s hgt (by omega)⟩
      unfold RandomSlice
      rw [if_neg hn1, if_pos hgt]
  · intro heq h0
    subst heq
    subst h0
    unfold RandomSlice
    rw [if_neg hn1, if_neg (by omega : ¬ (0 : Nat) > 0), if_pos rfl, if_pos rfl]
  · intro heq h0
    subst heq
    unfold RandomSlice
    rw [if_neg hn1, if_neg (by omega : ¬ s > s), if_pos rfl, if_neg h0]

/-- Witness for the C8 theorem with both draws at the array start of a
two-element list. -/
theorem randomSlice_nonempty_contiguous_witness :
    (∃ s2 e2, s2 < e2 ∧ e2 ≤ (["a", "b"] : List String).length ∧
       RandomSlice ["a", "b"] 0 0 = GoOutcome.ok (goSlice ["a", "b"] s2 e2) ∧
       goSlice ["a", "b"] s2 e2 ≠ [])
    ∧ (0 = 0 → 0 = 0 → RandomSlice ["a", "b"] 0 0 = GoOutcome.ok (goSlice ["a", "b"] 0 1))
    ∧ (0 = 0 → 0 ≠ 0 → RandomSlice ["a", "b"] 0 0 = GoOutcome.ok (goSlice ["a", "b"] 0 0))
    ∧ (∀ a b : Nat, RandomSlice [] a b = GoOutcome.err "values is empty") :=
  randomSlice_nonempty_contiguous ["a", "b"] 0 0 (by decide) (by decide) (by decide)

/-- A Go slice whose end bound stays below the last index draws only from
the input without its last element. -/
theorem goSlice_dropLast (values : List String) (s2 e2 : Nat)
    (h : e2 ≤ values.length - 1) :
    goSlice values s2 e2 = goSlice values.dropLast s2 e2 := by
  unfold goSlice
  rw [List.dropLast_eq_take, List.take_take, Nat.min_eq_left h]

/-- C10: with in-range draws on a list of at least two elements, the slice
`RandomSlice` returns always has its exclusive end bound at most
`len - 1`, so it equals the same slice of the input without its last
element: the final element is unreachable. -/
theorem randomSlice_last_unreachable (values : List String) (s e : Nat)
    (h2 : 2 ≤ values.length) (hs : s < values.length) (he : e < values.length) :
    ∃ s2 e2, e2 ≤ values.length - 1 ∧
      RandomSlice values s e = GoOutcome.ok (goSlice values s2 e2) ∧
      goSlice values s2 e2 = goSlice values.dropLast s2 e2 := by
  have hn1 : ¬ values.length < 1 := by omega
  rcases Nat.lt_trichotomy s e with hlt | heq | hgt
  · refine ⟨s, e, by omega, ?_, goSlice_dropLast values s e (by omega)⟩
    unfold RandomSlice
    rw [if_neg hn1, if_neg (by omega : ¬ s > e), if_neg (by omega : ¬ s = e)]
  · subst heq
    by_cases h0 : s = 0
    · subst h0
      refine ⟨0, 1, by omega, ?_, goSlice_dropLast values 0 1 (by omega)⟩
      unfold RandomSlice
      rw [if_neg hn1, if_neg (by omega : ¬ (0 : Nat) > 0), if_pos rfl, if_pos rfl]
    · refine ⟨s - 1, s, by omega, ?_, goSlice_dropLast values (s - 1) s (by omega)⟩
      unfold RandomSlice
      rw [if_neg hn1, if_neg (by omega : ¬ s > s), if_pos rfl, if_neg h0]
  · refine ⟨e, s, by omega, ?_, goSlice_dropLast values e s (by omega)⟩
    unfold RandomSlice
    rw [if_neg hn1, if_pos hgt]

/-- Witness for the C10 theorem on a two-element list. -/
theorem randomSlice_last_unreachable_witness :
    ∃ s2 e2, e2 ≤ (["a", "b"] : List String).length - 1 ∧
      RandomSlice ["a", "b"] 1 1 = GoOutcome.ok (goSlice ["a", "b"] s2 e2) ∧
      goSlice ["a", "b"] s2 e2 = goSlice (["a", "b"] : List String).dropLast s2 e2 :=
  randomSlice_last_unreachable ["a", "b"] 1 1 (by decide) (by decide) (by decide)

/-- Replacing the element at a valid position while prepending the old
element in front is a permutation of prepending the new element. -/
theorem cons_set_perm {α : Type} :
    ∀ (t : List α) (m : Nat) (x b : α), t[m]? = some b →
      List.Perm (b :: t.set m x) (x :: t)
  | [], m, x, b, h => by simp at h
  | a :: t, 0, x, b, h => by
    rw [List.getElem?_cons_zero, Option.some_inj] at h
    subst h
    rw [List.set_cons_zero]
    exact List.Perm.swap x a t
  | a :: t, m + 1, x, b, h => by
    rw [List.getElem?_cons_succ] at h
    rw [List.set_cons_succ]
    exact (List.Perm.swap a b (t.set m x)).trans
      (((cons_set_perm t m x b h).cons a).trans (List.Perm.swap x a t))

/-- One `rand.Shuffle` swap step permutes the list. -/
theorem goSwap_perm {α : Type} : ∀ (l : List α) (i j : Nat), List.Perm (goSwap l i j) l
  | [], i, j => by simp [goSwap]
  | a :: t, 0, 0 => by simp [goSwap]
  | a :: t, 0, j + 1 => by
    rcases hj : t[j]? with _ | b
    · simp [goSwap, hj]
    · simp only [goSwap, List.getElem?_cons_zero, List.getElem?_cons_succ, hj,
        List.set_cons_zero, List.set_cons_succ]
      exact cons_set_perm t j a b hj
  | a :: t, i + 1, 0 => by
    rcases hi : t[i]? with _ | c
    · simp [goSwap, hi]
    · simp only [goSwap, List.getElem?_cons_zero, List.getElem?_cons_succ, hi,
        List.set_cons_zero, List.set_cons_succ]
      exact cons_set_perm t i a c hi
  | a :: t, i + 1, j + 1 => by
    rcases hi : t[i]? with _ | b
    · simp [goSwap, hi]
    · rcases hj : t[j]? with _ | c
      · simp [goSwap, hi, hj]
      · simp only [goSwap, List.getElem?_cons_succ, hi, hj, List.set_cons_succ]
        refine List.Perm.cons a ?_
        have hrec := goSwap_perm t i j
        simpa [goSwap, hi, hj] using hrec

/-- The Fisher-Yates loop permutes the list for every draw sequence. -/
theorem shuffleAux_perm {α : Type} :
    ∀ (i : Nat) (l : List α) (js : List Nat), List.Perm (shuffleAux l i js) l
  | 0, l, js => by simp [shuffleAux]
  | i + 1, l, [] => by simp [shuffleAux]
  | i + 1, l, j :: js => by
    simp only [shuffleAux]
    exact (shuffleAux_perm i (goSwap l (i + 1) j) js).trans (goSwap_perm l (i + 1) j)

/-- C9 counterexample: shuffling the two-element list with draw 0 swaps in
place, so the caller-visible input sequence after the call is the swapped
list, not the original: the claim that the input is left unchanged fails
at this input. -/
theorem shuffle_mutates_input_cex :
    (Shuffle ["a", "b"] [0]).2 = ["b", "a"] ∧ (Shuffle ["a", "b"] [0]).2 ≠ ["a", "b"] := by
  constructor
  · rfl
  · decide

/-- C9 (amended): `Shuffle` returns a permutation of the input, but it
permutes the caller's slice in place: after the call the caller-visible
input sequence equals the returned (shuffled) sequence. -/
theorem shuffle_perm_in_place (values : List String) (draws : List Nat) :
    List.Perm (Shuffle values draws).1 values ∧
    (Shuffle values draws).2 = (Shuffle values draws).1 :=
  ⟨shuffleAux_perm (values.length - 1) values draws, rfl⟩

/-- C2 evaluation at the failing inputs: because `makeRequest` has no
early return after the streaming branches, a client-streaming-only method
issues the client-streaming state machine and then also a unary RPC; a
bidirectional method issues all four RPC kinds; a server-streaming-only
method also issues a unary RPC.  Only a non-streaming method issues
exactly the single unary RPC at index `(RequestNumber - 1)` modulo the
input count, as the claim states. -/
theorem makeRequest_dispatch_not_exclusive :
    makeRequestDispatch true false [5] 1 =
      ([RpcCall.clientStream [5], RpcCall.unary 5], none)
    ∧ makeRequestDispatch true true [5] 1 =
      ([RpcCall.bidi [5], RpcCall.clientStream [5], RpcCall.serverStream 5,
        RpcCall.unary 5], none)
    ∧ makeRequestDispatch false true [5] 1 =
      ([RpcCall.serverStream 5, RpcCall.unary 5], none)
    ∧ makeRequestDispatch false false [3, 7] 2 = ([RpcCall.unary 7], none) := by
  refine ⟨rfl, rfl, rfl, rfl⟩

/-- C4 evaluation at the failing input: on an empty resolved input
sequence the bidirectional state machine itself does close the send side
immediately, never starts the receiver, and returns nil (and the
client-streaming machine closes and receives at once with nil), but
`makeRequest` then falls through to the empty-input check and reports the
error `no data provided for request`, so the call's reported error is not
nil. -/
theorem empty_stream_input_reports_error :
    makeBidiRequest [] =
      { closedSendImmediately := true, recvStarted := false, sent := [], result := none }
    ∧ makeClientStreamingRequest [] =
      { closedAndReceived := true, sent := [], result := none }
    ∧ makeRequestDispatch true true [] 1 =
      ([RpcCall.bidi [], RpcCall.clientStream []], some "no data provided for request")
    ∧ makeRequestDispatch true false [] 1 =
      ([RpcCall.clientStream []], some "no data provided for request") := by
  refine ⟨rfl, rfl, rfl, rfl⟩

/-- The worker loop never issues more calls than remain. -/
theorem runWorkerAux_calls_le (stopAt : Nat → Bool) (callErr : Nat → Option String)
    (r : Nat) : ∀ (i : Nat) (agg : List String) (calls : Nat),
    (runWorkerAux stopAt callErr r i agg calls).2 ≤ calls + r := by
  induction r with
  | zero => intro i agg calls; simp [runWorkerAux]
  | succ r ih =>
    intro i agg calls
    simp only [runWorkerAux]
    split
    · simp
    · have h := ih (i + 1) (multierrAppend agg (callErr i)) (calls + 1)
      omega

/-- Appending to the multi-error aggregate concatenates the error's
singleton list. -/
theorem multierrAppend_eq (agg : List String) (e : Option String) :
    multierrAppend agg e = agg ++ e.toList := by
  cases e <;> simp [multierrAppend, Option.toList]

/-- When no stop signal fires, the worker loop runs all remaining
iterations and returns the accumulated aggregate. -/
theorem runWorkerAux_no_stop (stopAt : Nat → Bool) (callErr : Nat → Option String)
    (r : Nat) : ∀ (i : Nat) (agg : List String) (calls : Nat),
    (∀ k, k < r → stopAt (i + k) = false) →
    runWorkerAux stopAt callErr r i agg calls
      = (agg ++ aggregateRange callErr i r, calls + r) := by
  induction r with
  | zero => intro i agg calls h; simp [runWorkerAux, aggregateRange]
  | succ r ih =>
    intro i agg calls h
    have h0 : stopAt i = false := by simpa using h 0 (by omega)
    simp only [runWorkerAux]
    rw [if_neg (by simp [h0])]
    rw [ih (i + 1) _ (calls + 1) (fun k hk => by
      rw [show i + 1 + k = i + (k + 1) from by omega]
      exact h (k + 1) (by omega))]
    rw [multierrAppend_eq]
    simp only [aggregateRange, Prod.mk.injEq]
    exact ⟨by simp [List.append_assoc], by omega⟩

/-- When the stop signal first fires at boundary `j`, the worker loop
returns nil with only the first `j` calls issued. -/
theorem runWorkerAux_stop (stopAt : Nat → Bool) (callErr : Nat → Option String)
    (r : Nat) : ∀ (i : Nat) (agg : List String) (calls j : Nat),
    j < r → stopAt (i + j) = true → (∀ k, k < j → stopAt (i + k) = false) →
    runWorkerAux stopAt callErr r i agg calls = ([], calls + j) := by
  induction r with
  | zero => intro i agg calls j hj hs hpre; omega
  | succ r ih =>
    intro i agg calls j hj hs hpre
    cases j with
    | zero =>
      have h0 : stopAt i = true := by simpa using hs
      simp only [runWorkerAux]
      rw [if_pos (by simp [h0])]
      simp
    | succ j =>
      have h0 : stopAt i = false := by simpa using hpre 0 (by omega)
      simp only [runWorkerAux]
      rw [if_neg (by simp [h0])]
      rw [ih (i + 1) _ (calls + 1) j (by omega)
        (by rw [show i + 1 + j = i + (j + 1) from by omega]; exact hs)
        (fun k hk => by
          rw [show i + 1 + k = i + (k + 1) from by omega]
          exact hpre (k + 1) (by omega))]
      simp only [Prod.mk.injEq]
      refine ⟨by simp, by omega⟩

/-- C3 counterexample: with one erroring call followed by a stop signal at
the next iteration boundary, the loop returns nil even though the
aggregate it had accumulated so far is the singleton error list (which is
what the same loop returns when it is allowed to finish), so the claim
that the early-stop return carries the accumulated aggregate fails. -/
theorem runWorker_stop_discards_aggregate_cex :
    runWorker 2 (fun i => i == 1) (fun _ => some "rpc error") = ([], 1)
    ∧ runWorker 1 (fun _ => false) (fun _ => some "rpc error") = (["rpc error"], 1)
    ∧ ([] : List String) ≠ ["rpc error"] := by
  refine ⟨rfl, rfl, by decide⟩

/-- C3 (amended): `runWorker` issues at most `nReq` calls; when no stop
signal fires it runs all `nReq` iterations, appending every call's error
to the aggregate and returning it (nil when no call errored); when the
stop signal is first observed at an iteration boundary it returns
immediately with nil, discarding whatever aggregate it had accumulated. -/
theorem runWorker_aggregate_spec (nReq : Nat) (stopAt : Nat → Bool)
    (callErr : Nat → Option String) :
    (runWorker nReq stopAt callErr).2 ≤ nReq
    ∧ ((∀ i, i < nReq → stopAt i = false) →
        runWorker nReq stopAt callErr = (aggregateRange callErr 0 nReq, nReq))
    ∧ (∀ j, j < nReq → stopAt j = true → (∀ k, k < j → stopAt k = false) →
        runWorker nReq stopAt callErr = ([], j)) := by
  refine ⟨?_, ?_, ?_⟩
  · simpa [runWorker] using runWorkerAux_calls_le stopAt callErr nReq 0 [] 0
  · intro h
    simpa [runWorker] using
      runWorkerAux_no_stop stopAt callErr nReq 0 [] 0 (fun k hk => by simpa using h k hk)
  · intro j hj hs hpre
    simpa [runWorker] using
      runWorkerAux_stop stopAt callErr nReq 0 [] 0 j hj (by simpa using hs)
        (fun k hk => by simpa using hpre k hk)

/-- Witness for the amended C3 theorem: two erroring calls with no stop
signal return the two-element aggregate. -/
theorem runWorker_aggregate_spec_witness :
    runWorker 2 (fun _ => false) (fun _ => some "rpc error")
      = (["rpc error", "rpc error"], 2) :=
  ((runWorker_aggregate_spec 2 (fun _ => false) (fun _ => some "rpc error")).2.1
    (fun _ _ => rfl)).trans rfl

/-- Iterating `getMessages` from a state whose cache is populated touches
nothing and decodes nothing. -/
theorem runGetMessages_cached (decodeBin decodeJSON : String → Except String (List Msg))
    (td : callTemplateData) (inputData : String) (msgs : List Msg) :
    ∀ (n : Nat) (w : WorkerSt), w.cachedMessages = some msgs →
      runGetMessages decodeBin decodeJSON td inputData n w = (w, 0, 0) := by
  intro n
  induction n with
  | zero => intro w h; rfl
  | succ n ih =>
    intro w h
    have hg : getMessages decodeBin decodeJSON td w inputData =
        { result := GoOutcome.ok msgs, st := w, binDecodes := 0, jsonDecodes := 0 } := by
      simp [getMessages, h]
    simp only [runGetMessages, hg]
    rw [ih w h]
    simp

/-- In binary mode a run of `n ≥ 1` calls decodes exactly once and leaves
the decoded messages cached. -/
theorem runGetMessages_binary (decodeBin decodeJSON : String → Except String (List Msg))
    (td : callTemplateData) (inputData : String) (msgs : List Msg) (n : Nat)
    (hdec : decodeBin inputData = Except.ok msgs) (hn : 1 ≤ n) :
    runGetMessages decodeBin decodeJSON td inputData n
        { binary := true, cachedMessages := none }
      = ({ binary := true, cachedMessages := some msgs }, 1, 0) := by
  cases n with
  | zero => omega
  | succ n =>
    have hg : getMessages decodeBin decodeJSON td
        { binary := true, cachedMessages := none } inputData =
        { result := GoOutcome.ok msgs
          st := { binary := true, cachedMessages := some msgs }
          binDecodes := 1, jsonDecodes := 0 } := by
      simp [getMessages, hdec]
    simp only [runGetMessages, hg]
    rw [runGetMessages_cached decodeBin decodeJSON td inputData msgs n
      { binary := true, cachedMessages := some msgs } rfl]
    simp

/-- C5: a binary-mode Worker decodes its payload at most once: the first
`getMessages` call populates `cachedMessages` and a run of `n ≥ 1` calls
performs exactly one binary decode, every later call returning the cached
slice with zero decodes; in non-binary mode the cache is never populated,
and every call with an empty cache whose template expansion succeeds runs
one fresh JSON decode. -/
theorem getMessages_binary_cache_once (decodeBin decodeJSON : String → Except String (List Msg))
    (td : callTemplateData) (inputData : String) (msgs : List Msg) (n : Nat)
    (hdec : decodeBin inputData = Except.ok msgs) (hn : 1 ≤ n) :
    runGetMessages decodeBin decodeJSON td inputData n
        { binary := true, cachedMessages := none }
      = ({ binary := true, cachedMessages := some msgs }, 1, 0)
    ∧ (∀ (w : WorkerSt) (c : List Msg), w.cachedMessages = some c →
        getMessages decodeBin decodeJSON td w inputData =
          { result := GoOutcome.ok c, st := w, binDecodes := 0, jsonDecodes := 0 })
    ∧ (∀ w : WorkerSt, w.binary = false →
        (getMessages decodeBin decodeJSON td w inputData).st.cachedMessages
          = w.cachedMessages)
    ∧ (∀ (w : WorkerSt) (s : String), w.binary = false → w.cachedMessages = none →
        executeData td inputData = GoOutcome.ok s →
        (getMessages decodeBin decodeJSON td w inputData).jsonDecodes = 1) := by
  refine ⟨runGetMessages_binary decodeBin decodeJSON td inputData msgs n hdec hn,
    ?_, ?_, ?_⟩
  · intro w c h
    simp [getMessages, h]
  · intro w hbin
    cases hc : w.cachedMessages with
    | some c => simp [getMessages, hc]
    | none =>
      simp only [getMessages, hc, hbin]
      cases hE : executeData td inputData with
      | panicked => simp [hE, hc]
      | err e => simp [hE, hc]
      | ok d =>
        simp only [hE]
        cases hD : decodeJSON d with
        | error e => simp [hD, hc]
        | ok m => simp [hD, hc]
  · intro w s hbin hc hE
    simp only [getMessages, hc, hbin, hE]
    cases hD : decodeJSON s with
    | error e => simp [hD]
    | ok m => simp [hD]

/-- Witness for the C5 theorem: three binary-mode calls with a decoder
that yields one message decode exactly once. -/
theorem getMessages_binary_cache_once_witness :
    runGetMessages (fun _ => Except.ok [7]) (fun _ => Except.error "bad json")
        ctd0 "payload" 3 { binary := true, cachedMessages := none }
      = ({ binary := true, cachedMessages := some [7] }, 1, 0) :=
  (getMessages_binary_cache_once (fun _ => Except.ok [7])
    (fun _ => Except.error "bad json") ctd0 "payload" [7] 3 rfl (by omega)).1
